import Mathlib

/-!
Shallow embedding of the FreeRTOS MPU wrapper layer (handle pool, privilege
gate, object-kind adapters) from src/unnamed/part_000 and
src/portable/Common/mpu_wrappers.c.

Modelling conventions:
* A kernel-object reference (a C pointer value) is a `Nat`; `0` is NULL.
* The pool `xKernelObjectHandlePool` is a `List Nat`; its length plays the
  role of the build-time constant configPROTECTED_KERNEL_OBJECT_HANDLE_POOL_SIZE.
* The reservation sentinel written by MPU_GetFreeIndexInHandlePool,
  `( KernelObjectHandle_t ) ( ~0 )` on a 32-bit machine, is `2 ^ 32 - 1`.
* External handles travel as pointers cast to `int32_t`, so they are `Int`.
* `configASSERT` is fatal: primitives guarded by it return `Option`, with
  `none` for an assertion failure; adapters thread this through.
* The port primitives portRAISE_PRIVILEGE / portRESET_PRIVILEGE /
  portMEMORY_BARRIER and each forwarded kernel primitive are recorded as
  events in a trace, in the order the C code invokes them.  The results of
  the black-box kernel primitives (xTaskCreate, xQueueSelectFromSet, ...)
  are supplied as oracle arguments.
* portIS_PRIVILEGED() is the boolean argument `priv`; it is queried once
  per adapter call in the C code, so it is a constant of the call.
-/

namespace MPU

/-- pdFAIL, the designated failure value of BaseType_t-returning calls. -/
def pdFAIL : Int := 0

/-- pdPASS. -/
def pdPASS : Int := 1

/-- INDEX_OFFSET: offset added to a pool index to form the external handle. -/
def INDEX_OFFSET : Int := 1

/-- The non-NULL sentinel `( KernelObjectHandle_t ) ( ~0 )` used by
MPU_GetFreeIndexInHandlePool to mark a slot as claimed (32-bit machine). -/
def RESERVED_MARKER : Nat := 2 ^ 32 - 1

/-- Events recording the port primitives and the forwarded kernel calls,
with the arguments the adapter actually passed down. -/
inductive Ev where
  | raisePriv
  | resetPriv
  | barrier
  | callTaskCreate (pri : Nat)
  | callTaskCreateStatic (pri : Nat)
  | callTaskDelete (h : Nat)
  | callAllocateMPURegions (h : Nat)
  | callQueueSend (h : Nat) (item ticks copyPos : Int)
  | callSelectFromSet (h : Nat) (ticks : Int)
  | callGetCurrentTask
  deriving DecidableEq, Repr

/-- The loop body of MPU_GetFreeIndexInHandlePool: scan slots in ascending
order; at the first NULL slot write RESERVED_MARKER and return its index. -/
def reserveScan : List Nat → Option (Nat × List Nat)
  | [] => none
  | h :: t =>
      if h = 0 then some (0, RESERVED_MARKER :: t)
      else
        match reserveScan t with
        | none => none
        | some (i, t1) => some (i + 1, h :: t1)

/-- MPU_GetFreeIndexInHandlePool: returns the claimed index, or -1 when no
slot is free (pool unchanged in that case).  The vTaskSuspendAll /
xTaskResumeAll bracket makes the scan-and-claim atomic; in this sequential
embedding the whole function is one step. -/
def MPU_GetFreeIndexInHandlePool (pool : List Nat) : Int × List Nat :=
  match reserveScan pool with
  | none => (-1, pool)
  | some (i, p1) => ((i : Int), p1)

/-- MPU_SetIndexFreeInHandlePool: configASSERT bounds check, then store NULL
at the index (inside taskENTER_CRITICAL / taskEXIT_CRITICAL). -/
def MPU_SetIndexFreeInHandlePool (pool : List Nat) (lIndex : Int) :
    Option (List Nat) :=
  if 0 ≤ lIndex ∧ lIndex < (pool.length : Int) then
    some (pool.set lIndex.toNat 0)
  else none

/-- The loop of MPU_GetIndexForHandle: first index whose slot equals the
given handle. -/
def findHandleIdx (xHandle : Nat) : List Nat → Option Nat
  | [] => none
  | h :: t =>
      if h = xHandle then some 0
      else (findHandleIdx xHandle t).map (· + 1)

/-- MPU_GetIndexForHandle: configASSERT the handle is not NULL, then linear
scan; returns the first matching index, or -1 when absent. -/
def MPU_GetIndexForHandle (pool : List Nat) (xHandle : Nat) : Option Int :=
  if xHandle = 0 then none
  else
    match findHandleIdx xHandle pool with
    | some i => some ((i : Int))
    | none => some (-1)

/-- MPU_StoreHandleAtIndex: configASSERT bounds check, then store. -/
def MPU_StoreHandleAtIndex (pool : List Nat) (lIndex : Int) (xHandle : Nat) :
    Option (List Nat) :=
  if 0 ≤ lIndex ∧ lIndex < (pool.length : Int) then
    some (pool.set lIndex.toNat xHandle)
  else none

/-- MPU_GetHandleAtIndex: configASSERT bounds check, then read. -/
def MPU_GetHandleAtIndex (pool : List Nat) (lIndex : Int) : Option Nat :=
  if 0 ≤ lIndex ∧ lIndex < (pool.length : Int) then
    pool.get? lIndex.toNat
  else none

/-- Result of MPU_xTaskCreate: the returned BaseType_t, the value written
through pxCreatedTask (none when the C code leaves it untouched), the pool
after the call, and the event trace. -/
structure CreateOut where
  ret : Int
  createdTask : Option Int
  pool : List Nat
  trace : List Ev
  deriving DecidableEq, Repr

/-- All-ones 32-bit mask; `~x` on a 32-bit unsigned operand is `mask32 ^^^ x`. -/
def mask32 : Nat := 2 ^ 32 - 1

/-- MPU_xTaskCreate (src/unnamed/part_000 lines 231-293).  `privBit` is the
port constant portPRIVILEGE_BIT, `priv` is portIS_PRIVILEGED(), `uxPriority`
the caller priority, and `(kret, kref)` the black-box result of the
underlying xTaskCreate: its return value and the internal handle it wrote
(0 = NULL). -/
def MPU_xTaskCreate (privBit : Nat) (priv : Bool) (pool : List Nat)
    (uxPriority : Nat) (kret : Int) (kref : Nat) : Option CreateOut :=
  if priv = false then
    let pri := uxPriority &&& (mask32 ^^^ privBit)
    let r := MPU_GetFreeIndexInHandlePool pool
    if r.1 ≠ -1 then
      if kref ≠ 0 then do
        let pool2 ← MPU_StoreHandleAtIndex r.2 r.1 kref
        some ⟨kret, some (r.1 + INDEX_OFFSET), pool2,
          [.raisePriv, .barrier, .barrier, .callTaskCreate pri, .barrier,
           .resetPriv, .barrier]⟩
      else do
        let pool2 ← MPU_SetIndexFreeInHandlePool r.2 r.1
        some ⟨kret, none, pool2,
          [.raisePriv, .barrier, .barrier, .callTaskCreate pri, .barrier,
           .resetPriv, .barrier]⟩
    else
      some ⟨pdFAIL, none, r.2,
        [.raisePriv, .barrier, .barrier, .resetPriv, .barrier]⟩
  else
    let r := MPU_GetFreeIndexInHandlePool pool
    if r.1 ≠ -1 then
      if kref ≠ 0 then do
        let pool2 ← MPU_StoreHandleAtIndex r.2 r.1 kref
        some ⟨kret, some (r.1 + INDEX_OFFSET), pool2, [.callTaskCreate uxPriority]⟩
      else do
        let pool2 ← MPU_SetIndexFreeInHandlePool r.2 r.1
        some ⟨kret, none, pool2, [.callTaskCreate uxPriority]⟩
    else
      some ⟨pdFAIL, none, r.2, []⟩

/-- Result of MPU_xTaskCreateStatic: the returned external task handle
(0 = NULL), the pool after the call, and the event trace. -/
structure CreateStaticOut where
  ret : Int
  pool : List Nat
  trace : List Ev
  deriving DecidableEq, Repr

/-- MPU_xTaskCreateStatic (src/unnamed/part_000 lines 297-362).  `kref` is
the internal handle returned by the underlying xTaskCreateStatic
(0 = NULL on failure). -/
def MPU_xTaskCreateStatic (privBit : Nat) (priv : Bool) (pool : List Nat)
    (uxPriority : Nat) (kref : Nat) : Option CreateStaticOut :=
  if priv = false then
    let pri := uxPriority &&& (mask32 ^^^ privBit)
    let r := MPU_GetFreeIndexInHandlePool pool
    if r.1 ≠ -1 then
      if kref ≠ 0 then do
        let pool2 ← MPU_StoreHandleAtIndex r.2 r.1 kref
        some ⟨r.1 + INDEX_OFFSET, pool2,
          [.raisePriv, .barrier, .barrier, .callTaskCreateStatic pri, .barrier,
           .resetPriv, .barrier]⟩
      else do
        let pool2 ← MPU_SetIndexFreeInHandlePool r.2 r.1
        some ⟨0, pool2,
          [.raisePriv, .barrier, .barrier, .callTaskCreateStatic pri, .barrier,
           .resetPriv, .barrier]⟩
    else
      some ⟨0, r.2, [.raisePriv, .barrier, .barrier, .resetPriv, .barrier]⟩
  else
    let r := MPU_GetFreeIndexInHandlePool pool
    if r.1 ≠ -1 then
      if kref ≠ 0 then do
        let pool2 ← MPU_StoreHandleAtIndex r.2 r.1 kref
        some ⟨r.1 + INDEX_OFFSET, pool2, [.callTaskCreateStatic uxPriority]⟩
      else do
        let pool2 ← MPU_SetIndexFreeInHandlePool r.2 r.1
        some ⟨0, pool2, [.callTaskCreateStatic uxPriority]⟩
    else
      some ⟨0, r.2, []⟩

/-- Result of MPU_vTaskDelete (a void function): the pool after the call and
the event trace. -/
structure DeleteOut where
  pool : List Nat
  trace : List Ev
  deriving DecidableEq, Repr

/-- MPU_vTaskDelete (src/unnamed/part_000 lines 453-510).  Faithful to the
source, including the NULL-handle unprivileged branch (lines 494-504),
which invokes portRAISE_PRIVILEGE a second time where every sibling
adapter invokes portRESET_PRIVILEGE. -/
def MPU_vTaskDelete (priv : Bool) (pool : List Nat) (pxTaskToDelete : Int) :
    Option DeleteOut :=
  if pxTaskToDelete ≠ 0 then
    if priv = false then
      let lIndex := pxTaskToDelete
      if INDEX_OFFSET ≤ lIndex ∧ lIndex < (pool.length : Int) + INDEX_OFFSET then do
        let h ← MPU_GetHandleAtIndex pool (lIndex - INDEX_OFFSET)
        let pool1 ← MPU_SetIndexFreeInHandlePool pool (lIndex - INDEX_OFFSET)
        some ⟨pool1, [.raisePriv, .barrier, .callTaskDelete h, .barrier,
                      .resetPriv, .barrier]⟩
      else
        some ⟨pool, [.raisePriv, .barrier, .resetPriv, .barrier]⟩
    else
      let lIndex := pxTaskToDelete
      if INDEX_OFFSET ≤ lIndex ∧ lIndex < (pool.length : Int) + INDEX_OFFSET then do
        let h ← MPU_GetHandleAtIndex pool (lIndex - INDEX_OFFSET)
        let pool1 ← MPU_SetIndexFreeInHandlePool pool (lIndex - INDEX_OFFSET)
        some ⟨pool1, [.callTaskDelete h]⟩
      else
        some ⟨pool, []⟩
  else
    if priv = false then
      some ⟨pool, [.raisePriv, .barrier, .callTaskDelete 0, .barrier,
                   .raisePriv, .barrier]⟩
    else
      some ⟨pool, [.callTaskDelete 0]⟩

/-- MPU_vTaskAllocateMPURegions (src/unnamed/part_000 lines 428-449): no
privilege gate in the source; a non-NULL handle is range-checked and
translated, a NULL handle is forwarded as-is. -/
def MPU_vTaskAllocateMPURegions (pool : List Nat) (xTaskToModify : Int) :
    Option (List Ev) :=
  if xTaskToModify ≠ 0 then
    let lIndex := xTaskToModify
    if INDEX_OFFSET ≤ lIndex ∧ lIndex < (pool.length : Int) + INDEX_OFFSET then do
      let h ← MPU_GetHandleAtIndex pool (lIndex - INDEX_OFFSET)
      some [.callAllocateMPURegions h]
    else
      some []
  else
    some [.callAllocateMPURegions 0]

/-- MPU_xQueueGenericSend as in src/unnamed/part_000 lines 2752-2792.
`kret` is the black-box return of the underlying xQueueGenericSend. -/
def MPU_xQueueGenericSend (priv : Bool) (pool : List Nat) (kret : Int)
    (xQueue item ticks copyPos : Int) : Option (Int × List Ev) :=
  if priv = false then
    let lIndex := xQueue
    if INDEX_OFFSET ≤ lIndex ∧ lIndex < (pool.length : Int) + INDEX_OFFSET then do
      let h ← MPU_GetHandleAtIndex pool (lIndex - INDEX_OFFSET)
      some (kret, [.raisePriv, .barrier, .callQueueSend h item ticks copyPos,
                   .barrier, .resetPriv, .barrier])
    else
      some (pdFAIL, [.raisePriv, .barrier, .resetPriv, .barrier])
  else
    let lIndex := xQueue
    if INDEX_OFFSET ≤ lIndex ∧ lIndex < (pool.length : Int) + INDEX_OFFSET then do
      let h ← MPU_GetHandleAtIndex pool (lIndex - INDEX_OFFSET)
      some (kret, [.callQueueSend h item ticks copyPos])
    else
      some (pdFAIL, [])

/-- MPU_xQueueGenericSend as in src/portable/Common/mpu_wrappers.c lines
1408-1446, embedded independently from that file for comparison. -/
def MPU_xQueueGenericSendCommon (priv : Bool) (pool : List Nat) (kret : Int)
    (xQueue item ticks copyPos : Int) : Option (Int × List Ev) :=
  if priv = false then
    let lIndex := xQueue
    if INDEX_OFFSET ≤ lIndex ∧ lIndex < (pool.length : Int) + INDEX_OFFSET then do
      let h ← MPU_GetHandleAtIndex pool (lIndex - INDEX_OFFSET)
      some (kret, [.raisePriv, .barrier, .callQueueSend h item ticks copyPos,
                   .barrier, .resetPriv, .barrier])
    else
      some (pdFAIL, [.raisePriv, .barrier, .resetPriv, .barrier])
  else
    let lIndex := xQueue
    if INDEX_OFFSET ≤ lIndex ∧ lIndex < (pool.length : Int) + INDEX_OFFSET then do
      let h ← MPU_GetHandleAtIndex pool (lIndex - INDEX_OFFSET)
      some (kret, [.callQueueSend h item ticks copyPos])
    else
      some (pdFAIL, [])

/-- MPU_xQueueSelectFromSet (src/unnamed/part_000 lines 3430-3483).  `sel`
is the internal member handle returned by the underlying
xQueueSelectFromSet (0 = NULL); the function returns the external member
handle (0 = NULL). -/
def MPU_xQueueSelectFromSet (priv : Bool) (pool : List Nat) (sel : Nat)
    (xQueueSet ticks : Int) : Option (Int × List Ev) :=
  if priv = false then
    let lIndexQueueSet := xQueueSet
    if INDEX_OFFSET ≤ lIndexQueueSet ∧
        lIndexQueueSet < (pool.length : Int) + INDEX_OFFSET then do
      let h ← MPU_GetHandleAtIndex pool (lIndexQueueSet - INDEX_OFFSET)
      if sel ≠ 0 then do
        let i ← MPU_GetIndexForHandle pool sel
        some (i + INDEX_OFFSET,
          [.raisePriv, .barrier, .callSelectFromSet h ticks, .barrier,
           .resetPriv, .barrier])
      else
        some (0, [.raisePriv, .barrier, .callSelectFromSet h ticks, .barrier,
                  .resetPriv, .barrier])
    else
      some (0, [.raisePriv, .barrier, .resetPriv, .barrier])
  else
    let lIndexQueueSet := xQueueSet
    if INDEX_OFFSET ≤ lIndexQueueSet ∧
        lIndexQueueSet < (pool.length : Int) + INDEX_OFFSET then do
      let h ← MPU_GetHandleAtIndex pool (lIndexQueueSet - INDEX_OFFSET)
      if sel ≠ 0 then do
        let i ← MPU_GetIndexForHandle pool sel
        some (i + INDEX_OFFSET, [.callSelectFromSet h ticks])
      else
        some (0, [.callSelectFromSet h ticks])
    else
      some (0, [])

/-- MPU_xTaskGetCurrentTaskHandle (src/unnamed/part_000 lines 1955-1990).
`cur` is the internal handle returned by the underlying
xTaskGetCurrentTaskHandle (0 = NULL); the function returns the external
task handle (0 = NULL). -/
def MPU_xTaskGetCurrentTaskHandle (priv : Bool) (pool : List Nat)
    (cur : Nat) : Option (Int × List Ev) :=
  if priv = false then
    if cur ≠ 0 then do
      let i ← MPU_GetIndexForHandle pool cur
      some (i + INDEX_OFFSET,
        [.raisePriv, .barrier, .callGetCurrentTask, .barrier,
         .resetPriv, .barrier])
    else
      some (0, [.raisePriv, .barrier, .callGetCurrentTask,
                .resetPriv, .barrier])
  else
    if cur ≠ 0 then do
      let i ← MPU_GetIndexForHandle pool cur
      some (i + INDEX_OFFSET, [.callGetCurrentTask])
    else
      some (0, [.callGetCurrentTask])

/-- Number of portRAISE_PRIVILEGE invocations in a trace. -/
def raiseCount (tr : List Ev) : Nat := tr.count Ev.raisePriv

/-- Number of portRESET_PRIVILEGE invocations in a trace. -/
def resetCount (tr : List Ev) : Nat := tr.count Ev.resetPriv

/-- Scan checking that privilege is never raised twice without an
intervening reset; `raised` is whether a raise is outstanding. -/
def gateScan (raised : Bool) : List Ev → Bool
  | [] => true
  | Ev.raisePriv :: t => !raised && gateScan true t
  | Ev.resetPriv :: t => gateScan false t
  | _ :: t => gateScan raised t

/-- A trace never raises privilege a second time without an intervening
reset. -/
def noDoubleRaise (tr : List Ev) : Bool := gateScan false tr

/-! Helper lemmas about the pool scan and list updates. -/

theorem reserveScan_eq_none (pool : List Nat) :
    reserveScan pool = none ↔ 0 ∉ pool := by
  induction pool with
  | nil => simp [reserveScan]
  | cons a t ih =>
    by_cases ha : a = 0
    · subst ha; simp [reserveScan]
    · simp only [reserveScan, ha, if_false, List.mem_cons]
      cases hr : reserveScan t with
      | none =>
        have h0 : 0 ∉ t := ih.mp hr
        constructor
        · intro _ hmem
          rcases hmem with hc | hmem
          · exact ha hc.symm
          · exact h0 hmem
        · intro _
          rfl
      | some v =>
        obtain ⟨i0, t1⟩ := v
        have h0 : 0 ∈ t := by
          by_contra hc
          rw [← ih] at hc
          rw [hc] at hr
          exact Option.noConfusion hr
        constructor
        · intro hc
          exact Option.noConfusion hc
        · intro hna
          exact absurd (Or.inr h0) hna

theorem reserveScan_some (pool : List Nat) (i : Nat) (p1 : List Nat)
    (h : reserveScan pool = some (i, p1)) :
    i < pool.length ∧ pool.get? i = some 0 ∧
      p1 = pool.set i RESERVED_MARKER ∧
      ∀ j, j < i → pool.get? j ≠ some 0 := by
  induction pool generalizing i p1 with
  | nil => simp [reserveScan] at h
  | cons a t ih =>
    by_cases ha : a = 0
    · subst ha
      simp [reserveScan] at h
      obtain ⟨hi, hp⟩ := h
      subst hi
      subst hp
      exact ⟨by simp, by simp, by simp, by omega⟩
    · simp only [reserveScan, ha, if_false] at h
      cases hr : reserveScan t with
      | none =>
        rw [hr] at h
        exact Option.noConfusion h
      | some v =>
        obtain ⟨i0, t1⟩ := v
        rw [hr] at h
        simp only [Option.some.injEq, Prod.mk.injEq] at h
        obtain ⟨hi, hp⟩ := h
        obtain ⟨hlen, hget, hset, hmin⟩ := ih i0 t1 hr
        subst hi
        subst hp
        refine ⟨by simpa using Nat.succ_lt_succ hlen, by simpa using hget,
          by simp [hset], ?_⟩
        intro j hj
        cases j with
        | zero => simpa using fun hc => ha hc
        | succ k => simpa using hmin k (by omega)

theorem reserveScan_of_mem (pool : List Nat) (h : 0 ∈ pool) :
    ∃ i p1, reserveScan pool = some (i, p1) := by
  cases hr : reserveScan pool with
  | none => exact absurd ((reserveScan_eq_none pool).mp hr) (not_not_intro h)
  | some v => exact ⟨v.1, v.2, by simp [hr]⟩

theorem set_get_self (pool : List Nat) (i : Nat) (a : Nat)
    (h : pool.get? i = some a) : pool.set i a = pool := by
  induction pool generalizing i with
  | nil => simp at h
  | cons x t ih =>
    cases i with
    | zero =>
      simp only [List.get?_cons_zero, Option.some.injEq] at h
      simp [h]
    | succ k =>
      simp only [List.get?_cons_succ] at h
      simp [List.set, ih k h]

theorem get_set_lt (pool : List Nat) (i : Nat) (a : Nat)
    (h : i < pool.length) : (pool.set i a).get? i = some a := by
  induction pool generalizing i with
  | nil => simp at h
  | cons x t ih =>
    cases i with
    | zero => rfl
    | succ k => simpa using ih k (by simpa using h)

theorem set_set_same (pool : List Nat) (i : Nat) (a b : Nat) :
    (pool.set i a).set i b = pool.set i b := by
  induction pool generalizing i with
  | nil => rfl
  | cons x t ih =>
    cases i with
    | zero => rfl
    | succ k => simp [List.set, ih k]

theorem store_after_reserve (pool : List Nat) (i : Nat) (kref : Nat)
    (hlen : i < pool.length) :
    MPU_StoreHandleAtIndex (pool.set i RESERVED_MARKER) ((i : Int)) kref
      = some (pool.set i kref) := by
  unfold MPU_StoreHandleAtIndex
  rw [if_pos]
  · have ht : ((i : Int)).toNat = i := by omega
    rw [ht, set_set_same]
  · constructor
    · omega
    · simp only [List.length_set]
      omega

theorem release_after_reserve (pool : List Nat) (i : Nat)
    (hlen : i < pool.length) (hget : pool.get? i = some 0) :
    MPU_SetIndexFreeInHandlePool (pool.set i RESERVED_MARKER) ((i : Int))
      = some pool := by
  unfold MPU_SetIndexFreeInHandlePool
  rw [if_pos]
  · have ht : ((i : Int)).toNat = i := by omega
    rw [ht, set_set_same]
    rw [set_get_self pool i 0 hget]
  · constructor
    · omega
    · simp only [List.length_set]
      omega

/-- Claim C2: if a free slot is reserved and the underlying create primitive
then fails (NULL internal reference), MPU_xTaskCreate releases the reserved
slot, returns the failure value, leaves the caller handle unwritten, and the
pool is exactly as before the call. -/
theorem mpu_xTaskCreate_rollback_on_kernel_failure
    (privBit : Nat) (priv : Bool) (pool : List Nat) (uxPriority : Nat)
    (hfree : 0 ∈ pool) :
    ∃ out, MPU_xTaskCreate privBit priv pool uxPriority pdFAIL 0 = some out ∧
      out.pool = pool ∧ out.ret = pdFAIL ∧ out.createdTask = none ∧
      ∃ p, Ev.callTaskCreate p ∈ out.trace := by
  obtain ⟨i, p1, hscan⟩ := reserveScan_of_mem pool hfree
  obtain ⟨hlen, hget, hset, -⟩ := reserveScan_some pool i p1 hscan
  subst hset
  have hrel := release_after_reserve pool i hlen hget
  have hne : ((i : Int)) ≠ -1 := by omega
  cases priv with
  | false =>
      refine ⟨⟨pdFAIL, none, pool,
        [.raisePriv, .barrier, .barrier,
         .callTaskCreate (uxPriority &&& (mask32 ^^^ privBit)), .barrier,
         .resetPriv, .barrier]⟩, ?_, rfl, rfl, rfl,
        ⟨uxPriority &&& (mask32 ^^^ privBit), by simp⟩⟩
      simp [MPU_xTaskCreate, MPU_GetFreeIndexInHandlePool, hscan, hne, hrel]
  | true =>
      refine ⟨⟨pdFAIL, none, pool, [.callTaskCreate uxPriority]⟩, ?_,
        rfl, rfl, rfl, ⟨uxPriority, by simp⟩⟩
      simp [MPU_xTaskCreate, MPU_GetFreeIndexInHandlePool, hscan, hne, hrel]

/-- Witness for the claim C2 theorem at a concrete input. -/
theorem mpu_xTaskCreate_rollback_on_kernel_failure_w :
    (0 ∈ [0, 7]) ∧
    (∃ out, MPU_xTaskCreate 0 true [0, 7] 5 pdFAIL 0 = some out ∧
      out.pool = [0, 7] ∧ out.ret = pdFAIL ∧ out.createdTask = none ∧
      ∃ p, Ev.callTaskCreate p ∈ out.trace) :=
  ⟨by decide,
   mpu_xTaskCreate_rollback_on_kernel_failure 0 true [0, 7] 5 (by decide)⟩

/-- Claim C3: with no Free slot, reservation returns -1 with the pool
unchanged, MPU_xTaskCreate returns the failure value without invoking the
underlying create primitive, no slot changes, and repeating the call
changes nothing. -/
theorem mpu_xTaskCreate_exhaustion_fail_fast
    (privBit : Nat) (priv : Bool) (pool : List Nat) (uxPriority : Nat)
    (kret : Int) (kref : Nat) (hfull : 0 ∉ pool) :
    MPU_GetFreeIndexInHandlePool pool = (-1, pool) ∧
    ∃ out, MPU_xTaskCreate privBit priv pool uxPriority kret kref = some out ∧
      out.ret = pdFAIL ∧ out.createdTask = none ∧ out.pool = pool ∧
      (∀ p, Ev.callTaskCreate p ∉ out.trace) ∧
      MPU_xTaskCreate privBit priv out.pool uxPriority kret kref =
        MPU_xTaskCreate privBit priv pool uxPriority kret kref := by
  have hscan : reserveScan pool = none := (reserveScan_eq_none pool).mpr hfull
  have hfix : MPU_GetFreeIndexInHandlePool pool = (-1, pool) := by
    simp [MPU_GetFreeIndexInHandlePool, hscan]
  refine ⟨hfix, ?_⟩
  cases priv with
  | false =>
      refine ⟨⟨pdFAIL, none, pool,
        [.raisePriv, .barrier, .barrier, .resetPriv, .barrier]⟩, ?_,
        rfl, rfl, rfl, by simp, rfl⟩
      simp [MPU_xTaskCreate, MPU_GetFreeIndexInHandlePool, hscan]
  | true =>
      refine ⟨⟨pdFAIL, none, pool, []⟩, ?_, rfl, rfl, rfl, by simp, rfl⟩
      simp [MPU_xTaskCreate, MPU_GetFreeIndexInHandlePool, hscan]

/-- Witness for the claim C3 theorem at a concrete input. -/
theorem mpu_xTaskCreate_exhaustion_fail_fast_w :
    (0 ∉ [3, 7]) ∧
    (MPU_GetFreeIndexInHandlePool [3, 7] = (-1, [3, 7]) ∧
     ∃ out, MPU_xTaskCreate 0 false [3, 7] 5 pdPASS 9 = some out ∧
       out.ret = pdFAIL ∧ out.createdTask = none ∧ out.pool = [3, 7] ∧
       (∀ p, Ev.callTaskCreate p ∉ out.trace) ∧
       MPU_xTaskCreate 0 false out.pool 5 pdPASS 9 =
         MPU_xTaskCreate 0 false [3, 7] 5 pdPASS 9) :=
  ⟨by decide,
   mpu_xTaskCreate_exhaustion_fail_fast 0 false [3, 7] 5 pdPASS 9 (by decide)⟩

/-- Claim C5: on a successful creation the returned external handle H
satisfies offset ≤ H < capacity + offset, and looking H up immediately
afterwards yields exactly the internal reference just created. -/
theorem mpu_xTaskCreate_handle_roundtrip
    (privBit : Nat) (priv : Bool) (pool : List Nat) (uxPriority : Nat)
    (kret : Int) (kref : Nat) (hfree : 0 ∈ pool) (href : kref ≠ 0) :
    ∃ out H, MPU_xTaskCreate privBit priv pool uxPriority kret kref = some out ∧
      out.createdTask = some H ∧ out.ret = kret ∧
      INDEX_OFFSET ≤ H ∧ H < (pool.length : Int) + INDEX_OFFSET ∧
      MPU_GetHandleAtIndex out.pool (H - INDEX_OFFSET) = some kref := by
  obtain ⟨i, p1, hscan⟩ := reserveScan_of_mem pool hfree
  obtain ⟨hlen, hget, hset, -⟩ := reserveScan_some pool i p1 hscan
  subst hset
  have hst := store_after_reserve pool i kref hlen
  have hne : ((i : Int)) ≠ -1 := by omega
  have hlook : MPU_GetHandleAtIndex (pool.set i kref)
      (((i : Int) + INDEX_OFFSET) - INDEX_OFFSET) = some kref := by
    have he : ((i : Int) + INDEX_OFFSET) - INDEX_OFFSET = ((i : Int)) := by
      ring
    rw [he]
    unfold MPU_GetHandleAtIndex
    rw [if_pos]
    · have ht : ((i : Int)).toNat = i := by omega
      rw [ht]
      exact get_set_lt pool i kref hlen
    · constructor
      · omega
      · simp only [List.length_set]
        omega
  cases priv with
  | false =>
      have hmain : MPU_xTaskCreate privBit false pool uxPriority kret kref =
          some ⟨kret, some ((i : Int) + INDEX_OFFSET), pool.set i kref,
            [.raisePriv, .barrier, .barrier,
             .callTaskCreate (uxPriority &&& (mask32 ^^^ privBit)), .barrier,
             .resetPriv, .barrier]⟩ := by
        simp [MPU_xTaskCreate, MPU_GetFreeIndexInHandlePool, hscan, hne, hst,
          href]
      exact ⟨_, (i : Int) + INDEX_OFFSET, hmain, rfl, rfl,
        by simp only [INDEX_OFFSET]; omega,
        by simp only [INDEX_OFFSET]; omega, hlook⟩
  | true =>
      have hmain : MPU_xTaskCreate privBit true pool uxPriority kret kref =
          some ⟨kret, some ((i : Int) + INDEX_OFFSET), pool.set i kref,
            [.callTaskCreate uxPriority]⟩ := by
        simp [MPU_xTaskCreate, MPU_GetFreeIndexInHandlePool, hscan, hne, hst,
          href]
      exact ⟨_, (i : Int) + INDEX_OFFSET, hmain, rfl, rfl,
        by simp only [INDEX_OFFSET]; omega,
        by simp only [INDEX_OFFSET]; omega, hlook⟩

/-- Witness for the claim C5 theorem at a concrete input. -/
theorem mpu_xTaskCreate_handle_roundtrip_w :
    (0 ∈ [4, 0, 6]) ∧ ((9 : Nat) ≠ 0) ∧
    (∃ out H, MPU_xTaskCreate 0 false [4, 0, 6] 5 pdPASS 9 = some out ∧
      out.createdTask = some H ∧ out.ret = pdPASS ∧
      INDEX_OFFSET ≤ H ∧ H < (([4, 0, 6] : List Nat).length : Int) + INDEX_OFFSET ∧
      MPU_GetHandleAtIndex out.pool (H - INDEX_OFFSET) = some 9) :=
  ⟨by decide, by decide,
   mpu_xTaskCreate_handle_roundtrip 0 false [4, 0, 6] 5 pdPASS 9
     (by decide) (by decide)⟩

/-- Claim C4: slot reservation claims the lowest-indexed Free slot, marks it
non-free, returns its index, and returns -1 exactly when no slot is Free;
and the concrete capacity-4 scenario: creations yield handles 1,2,3,4,
deleting handle 2 frees slot index 1, the next creation returns handle 2,
and a further creation fails with all slots unchanged. -/
theorem mpu_getFreeIndex_lowest_free (pool p1 : List Nat) (lIndex : Int)
    (h : MPU_GetFreeIndexInHandlePool pool = (lIndex, p1)) :
    ((lIndex ≠ -1 →
        0 ≤ lIndex ∧ lIndex < (pool.length : Int) ∧
        pool.get? lIndex.toNat = some 0 ∧
        (∀ j : Nat, j < lIndex.toNat → pool.get? j ≠ some 0) ∧
        p1 = pool.set lIndex.toNat RESERVED_MARKER) ∧
     (lIndex = -1 → 0 ∉ pool ∧ p1 = pool) ∧
     (0 ∉ pool → lIndex = -1)) ∧
    (MPU_xTaskCreate 0 true [0, 0, 0, 0] 1 pdPASS 10 =
       some ⟨pdPASS, some 1, [10, 0, 0, 0], [.callTaskCreate 1]⟩) ∧
    (MPU_xTaskCreate 0 true [10, 0, 0, 0] 1 pdPASS 20 =
       some ⟨pdPASS, some 2, [10, 20, 0, 0], [.callTaskCreate 1]⟩) ∧
    (MPU_xTaskCreate 0 true [10, 20, 0, 0] 1 pdPASS 30 =
       some ⟨pdPASS, some 3, [10, 20, 30, 0], [.callTaskCreate 1]⟩) ∧
    (MPU_xTaskCreate 0 true [10, 20, 30, 0] 1 pdPASS 40 =
       some ⟨pdPASS, some 4, [10, 20, 30, 40], [.callTaskCreate 1]⟩) ∧
    (MPU_vTaskDelete true [10, 20, 30, 40] 2 =
       some ⟨[10, 0, 30, 40], [.callTaskDelete 20]⟩) ∧
    (MPU_xTaskCreate 0 true [10, 0, 30, 40] 1 pdPASS 50 =
       some ⟨pdPASS, some 2, [10, 50, 30, 40], [.callTaskCreate 1]⟩) ∧
    (MPU_xTaskCreate 0 true [10, 50, 30, 40] 1 pdPASS 60 =
       some ⟨pdFAIL, none, [10, 50, 30, 40], []⟩) := by
  refine ⟨?_, by decide, by decide, by decide, by decide, by decide,
    by decide, by decide⟩
  cases hscan : reserveScan pool with
  | none =>
    have h0 : 0 ∉ pool := (reserveScan_eq_none pool).mp hscan
    have hh := h
    simp only [MPU_GetFreeIndexInHandlePool, hscan, Prod.mk.injEq] at hh
    obtain ⟨ha, hb⟩ := hh
    subst ha
    subst hb
    exact ⟨fun hc => absurd rfl hc, fun _ => ⟨h0, rfl⟩, fun _ => rfl⟩
  | some v =>
    obtain ⟨i, q⟩ := v
    obtain ⟨hlen, hget, hset, hmin⟩ := reserveScan_some pool i q hscan
    have hh := h
    simp only [MPU_GetFreeIndexInHandlePool, hscan, Prod.mk.injEq] at hh
    obtain ⟨ha, hb⟩ := hh
    subst ha
    subst hb
    have htn : ((i : Int)).toNat = i := by omega
    refine ⟨fun _ => ⟨by omega, by omega, by rw [htn]; exact hget, ?_,
      by rw [htn]; exact hset⟩, fun hc => absurd hc (by omega), fun h0 => ?_⟩
    · intro j hj
      rw [htn] at hj
      exact hmin j hj
    · exact absurd (List.get?_mem hget) h0

/-- Witness for the claim C4 theorem at a concrete input. -/
theorem mpu_getFreeIndex_lowest_free_w :
    (MPU_GetFreeIndexInHandlePool [7, 0, 5] = (1, [7, RESERVED_MARKER, 5])) ∧
    ((((1 : Int) ≠ -1 →
        0 ≤ (1 : Int) ∧ (1 : Int) < (([7, 0, 5] : List Nat).length : Int) ∧
        ([7, 0, 5] : List Nat).get? (1 : Int).toNat = some 0 ∧
        (∀ j : Nat, j < (1 : Int).toNat →
          ([7, 0, 5] : List Nat).get? j ≠ some 0) ∧
        [7, RESERVED_MARKER, 5] =
          ([7, 0, 5] : List Nat).set (1 : Int).toNat RESERVED_MARKER) ∧
      ((1 : Int) = -1 → 0 ∉ ([7, 0, 5] : List Nat) ∧
        ([7, RESERVED_MARKER, 5] : List Nat) = [7, 0, 5]) ∧
      (0 ∉ ([7, 0, 5] : List Nat) → (1 : Int) = -1)) ∧
     (MPU_xTaskCreate 0 true [0, 0, 0, 0] 1 pdPASS 10 =
        some ⟨pdPASS, some 1, [10, 0, 0, 0], [.callTaskCreate 1]⟩) ∧
     (MPU_xTaskCreate 0 true [10, 0, 0, 0] 1 pdPASS 20 =
        some ⟨pdPASS, some 2, [10, 20, 0, 0], [.callTaskCreate 1]⟩) ∧
     (MPU_xTaskCreate 0 true [10, 20, 0, 0] 1 pdPASS 30 =
        some ⟨pdPASS, some 3, [10, 20, 30, 0], [.callTaskCreate 1]⟩) ∧
     (MPU_xTaskCreate 0 true [10, 20, 30, 0] 1 pdPASS 40 =
        some ⟨pdPASS, some 4, [10, 20, 30, 40], [.callTaskCreate 1]⟩) ∧
     (MPU_vTaskDelete true [10, 20, 30, 40] 2 =
        some ⟨[10, 0, 30, 40], [.callTaskDelete 20]⟩) ∧
     (MPU_xTaskCreate 0 true [10, 0, 30, 40] 1 pdPASS 50 =
        some ⟨pdPASS, some 2, [10, 50, 30, 40], [.callTaskCreate 1]⟩) ∧
     (MPU_xTaskCreate 0 true [10, 50, 30, 40] 1 pdPASS 60 =
        some ⟨pdFAIL, none, [10, 50, 30, 40], []⟩)) :=
  ⟨by decide, mpu_getFreeIndex_lowest_free [7, 0, 5] [7, RESERVED_MARKER, 5] 1
    (by decide)⟩

/-- Claim C1 (code-bug evidence): MPU_vTaskDelete called unprivileged with a
NULL task handle invokes the privilege-raise primitive twice and the reset
primitive zero times, and its trace raises privilege a second time without
an intervening reset (src/unnamed/part_000 lines 494-504). -/
theorem mpu_vTaskDelete_null_unprivileged_double_raise :
    MPU_vTaskDelete false [0, 0, 0, 0] 0 =
      some ⟨[0, 0, 0, 0],
        [.raisePriv, .barrier, .callTaskDelete 0, .barrier,
         .raisePriv, .barrier]⟩ ∧
    raiseCount [Ev.raisePriv, .barrier, .callTaskDelete 0, .barrier,
      .raisePriv, .barrier] = 2 ∧
    resetCount [Ev.raisePriv, .barrier, .callTaskDelete 0, .barrier,
      .raisePriv, .barrier] = 0 ∧
    noDoubleRaise [Ev.raisePriv, .barrier, .callTaskDelete 0, .barrier,
      .raisePriv, .barrier] = false := by
  exact ⟨by decide, by decide, by decide, by decide⟩

/-- Claim C6 counterexample: MPU_vTaskDelete called with external handle 0
does forward the underlying vTaskDelete call (with a NULL argument),
refuting the claim that every adapter rejects handle value 0 without
forwarding the underlying kernel call. -/
theorem mpu_handle_zero_forwarded_cex :
    MPU_vTaskDelete true [5, 6] 0 = some ⟨[5, 6], [.callTaskDelete 0]⟩ := by
  decide

/-- Claim C6 amended: a call with an out-of-range external handle (negative,
zero for the range-checked adapters, or capacity + offset) returns the
designated failure/default value, performs no pool mutation, does not
forward the underlying kernel call, and never accesses the pool out of
bounds; a task adapter given handle 0 instead follows the null-handle
convention. -/
theorem mpu_invalid_handle_rejected
    (priv : Bool) (pool : List Nat) (hext kret item ticks copyPos : Int)
    (hrange : hext < INDEX_OFFSET ∨ (pool.length : Int) + INDEX_OFFSET ≤ hext) :
    (∃ tr, MPU_xQueueGenericSend priv pool kret hext item ticks copyPos =
        some (pdFAIL, tr) ∧ ∀ ih i t c, Ev.callQueueSend ih i t c ∉ tr) ∧
    (hext ≠ 0 →
      ∃ tr, MPU_vTaskDelete priv pool hext = some ⟨pool, tr⟩ ∧
        ∀ ih, Ev.callTaskDelete ih ∉ tr) := by
  have hc : ¬ (INDEX_OFFSET ≤ hext ∧ hext < (pool.length : Int) + INDEX_OFFSET) := by
    simp only [INDEX_OFFSET] at hrange ⊢
    omega
  cases priv with
  | false =>
    refine ⟨⟨[.raisePriv, .barrier, .resetPriv, .barrier], ?_, by simp⟩,
      fun hnz => ⟨[.raisePriv, .barrier, .resetPriv, .barrier], ?_, by simp⟩⟩
    · simp [MPU_xQueueGenericSend, hc]
    · simp [MPU_vTaskDelete, hnz, hc]
  | true =>
    refine ⟨⟨[], ?_, by simp⟩, fun hnz => ⟨[], ?_, by simp⟩⟩
    · simp [MPU_xQueueGenericSend, hc]
    · simp [MPU_vTaskDelete, hnz, hc]

/-- Witness for the amended claim C6 theorem at a concrete input. -/
theorem mpu_invalid_handle_rejected_w :
    ((-5 : Int) < INDEX_OFFSET ∨ (([4, 9] : List Nat).length : Int) + INDEX_OFFSET ≤ -5) ∧
    ((∃ tr, MPU_xQueueGenericSend false [4, 9] pdPASS (-5) 0 0 0 =
        some (pdFAIL, tr) ∧ ∀ ih i t c, Ev.callQueueSend ih i t c ∉ tr) ∧
     ((-5 : Int) ≠ 0 →
       ∃ tr, MPU_vTaskDelete false [4, 9] (-5) = some ⟨[4, 9], tr⟩ ∧
         ∀ ih, Ev.callTaskDelete ih ∉ tr)) :=
  ⟨by decide,
   mpu_invalid_handle_rejected false [4, 9] (-5) pdPASS 0 0 0 (by decide)⟩

/-- Claim C7: a zero/NULL external handle bypasses pool translation and is
forwarded as-is (as NULL) to the underlying kernel primitive in the task
adapters, with the pool untouched. -/
theorem mpu_null_handle_forwarded (priv : Bool) (pool : List Nat) :
    MPU_vTaskAllocateMPURegions pool 0 = some [.callAllocateMPURegions 0] ∧
    ∃ tr, MPU_vTaskDelete priv pool 0 = some ⟨pool, tr⟩ ∧
      Ev.callTaskDelete 0 ∈ tr := by
  refine ⟨by simp [MPU_vTaskAllocateMPURegions], ?_⟩
  cases priv with
  | false =>
    exact ⟨[.raisePriv, .barrier, .callTaskDelete 0, .barrier,
            .raisePriv, .barrier], by simp [MPU_vTaskDelete], by simp⟩
  | true =>
    exact ⟨[.callTaskDelete 0], by simp [MPU_vTaskDelete], by simp⟩

theorem getHandle_isSome (pool : List Nat) (lIndex : Int)
    (h : 0 ≤ lIndex ∧ lIndex < (pool.length : Int)) :
    ∃ a, MPU_GetHandleAtIndex pool lIndex = some a := by
  unfold MPU_GetHandleAtIndex
  rw [if_pos h]
  have hlt : lIndex.toNat < pool.length := by omega
  cases hg : pool.get? lIndex.toNat with
  | none =>
    have := List.get?_eq_none.mp hg
    omega
  | some a => exact ⟨a, rfl⟩

/-- Claim C8: for an adapter whose forwarded result is itself a kernel
object reference, given an in-range (or implicit) handle the internal
result is translated back through the reverse lookup (slot index plus
offset), and the default value 0 (NULL) is returned when the result is
absent, including when the reverse lookup finds no bound slot (the scan
returns -1 and -1 + offset = 0). -/
theorem mpu_reverse_lookup_translation
    (priv : Bool) (pool : List Nat) (sel cur : Nat) (hset ticks : Int)
    (hin : INDEX_OFFSET ≤ hset ∧ hset < (pool.length : Int) + INDEX_OFFSET) :
    (sel = 0 →
      (MPU_xQueueSelectFromSet priv pool sel hset ticks).map Prod.fst =
        some 0) ∧
    (∀ i : Nat, sel ≠ 0 → findHandleIdx sel pool = some i →
      (MPU_xQueueSelectFromSet priv pool sel hset ticks).map Prod.fst =
        some ((i : Int) + INDEX_OFFSET)) ∧
    (sel ≠ 0 → findHandleIdx sel pool = none →
      (MPU_xQueueSelectFromSet priv pool sel hset ticks).map Prod.fst =
        some 0) ∧
    (cur = 0 →
      (MPU_xTaskGetCurrentTaskHandle priv pool cur).map Prod.fst = some 0) ∧
    (∀ i : Nat, cur ≠ 0 → findHandleIdx cur pool = some i →
      (MPU_xTaskGetCurrentTaskHandle priv pool cur).map Prod.fst =
        some ((i : Int) + INDEX_OFFSET)) ∧
    (cur ≠ 0 → findHandleIdx cur pool = none →
      (MPU_xTaskGetCurrentTaskHandle priv pool cur).map Prod.fst = some 0) := by
  obtain ⟨a, hga⟩ := getHandle_isSome pool (hset - INDEX_OFFSET)
    (by simp only [INDEX_OFFSET] at hin ⊢; omega)
  have hoff : ((-1 : Int)) + INDEX_OFFSET = 0 := by
    simp [INDEX_OFFSET]
  cases priv with
  | false =>
    refine ⟨fun hsel => ?_, fun i hsel hfind => ?_, fun hsel hfind => ?_,
      fun hcur => ?_, fun i hcur hfind => ?_, fun hcur hfind => ?_⟩
    · simp [MPU_xQueueSelectFromSet, hin.1, hin.2, hga, hsel]
    · simp [MPU_xQueueSelectFromSet, hin.1, hin.2, hga, hsel,
        MPU_GetIndexForHandle, hfind]
    · simp [MPU_xQueueSelectFromSet, hin.1, hin.2, hga, hsel,
        MPU_GetIndexForHandle, hfind, hoff]
    · simp [MPU_xTaskGetCurrentTaskHandle, hcur]
    · simp [MPU_xTaskGetCurrentTaskHandle, hcur, MPU_GetIndexForHandle, hfind]
    · simp [MPU_xTaskGetCurrentTaskHandle, hcur, MPU_GetIndexForHandle,
        hfind, hoff]
  | true =>
    refine ⟨fun hsel => ?_, fun i hsel hfind => ?_, fun hsel hfind => ?_,
      fun hcur => ?_, fun i hcur hfind => ?_, fun hcur hfind => ?_⟩
    · simp [MPU_xQueueSelectFromSet, hin.1, hin.2, hga, hsel]
    · simp [MPU_xQueueSelectFromSet, hin.1, hin.2, hga, hsel,
        MPU_GetIndexForHandle, hfind]
    · simp [MPU_xQueueSelectFromSet, hin.1, hin.2, hga, hsel,
        MPU_GetIndexForHandle, hfind, hoff]
    · simp [MPU_xTaskGetCurrentTaskHandle, hcur]
    · simp [MPU_xTaskGetCurrentTaskHandle, hcur, MPU_GetIndexForHandle, hfind]
    · simp [MPU_xTaskGetCurrentTaskHandle, hcur, MPU_GetIndexForHandle,
        hfind, hoff]

/-- Witness for the claim C8 theorem at a concrete input. -/
theorem mpu_reverse_lookup_translation_w :
    (INDEX_OFFSET ≤ (1 : Int) ∧
      (1 : Int) < (([10, 20] : List Nat).length : Int) + INDEX_OFFSET) ∧
    (((20 : Nat) = 0 →
       (MPU_xQueueSelectFromSet true [10, 20] 20 1 0).map Prod.fst = some 0) ∧
     (∀ i : Nat, (20 : Nat) ≠ 0 → findHandleIdx 20 [10, 20] = some i →
       (MPU_xQueueSelectFromSet true [10, 20] 20 1 0).map Prod.fst =
         some ((i : Int) + INDEX_OFFSET)) ∧
     ((20 : Nat) ≠ 0 → findHandleIdx 20 [10, 20] = none →
       (MPU_xQueueSelectFromSet true [10, 20] 20 1 0).map Prod.fst = some 0) ∧
     ((99 : Nat) = 0 →
       (MPU_xTaskGetCurrentTaskHandle true [10, 20] 99).map Prod.fst =
         some 0) ∧
     (∀ i : Nat, (99 : Nat) ≠ 0 → findHandleIdx 99 [10, 20] = some i →
       (MPU_xTaskGetCurrentTaskHandle true [10, 20] 99).map Prod.fst =
         some ((i : Int) + INDEX_OFFSET)) ∧
     ((99 : Nat) ≠ 0 → findHandleIdx 99 [10, 20] = none →
       (MPU_xTaskGetCurrentTaskHandle true [10, 20] 99).map Prod.fst =
         some 0)) :=
  ⟨by decide,
   mpu_reverse_lookup_translation true [10, 20] 20 99 1 0 (by decide)⟩

theorem land_not_privBit (privBit p : Nat) (hbit : privBit < 2 ^ 32) :
    (p &&& (mask32 ^^^ privBit)) &&& privBit = 0 := by
  apply Nat.eq_of_testBit_eq
  intro j
  simp only [Nat.testBit_land, Nat.testBit_xor, Nat.zero_testBit]
  by_cases hj : j < 32
  · have hm : Nat.testBit mask32 j = true := by
      have hmask : mask32 = 2 ^ 32 - 1 := rfl
      rw [hmask, Nat.testBit_two_pow_sub_one]
      simpa using hj
    cases hpb : Nat.testBit privBit j with
    | false => simp [hpb]
    | true => simp [hm, hpb]
  · have h32 : (2 : Nat) ^ 32 ≤ 2 ^ j :=
      Nat.pow_le_pow_right (by norm_num) (by omega)
    have hpb : Nat.testBit privBit j = false :=
      Nat.testBit_lt_two_pow (lt_of_lt_of_le hbit h32)
    simp [hpb]

theorem xTaskCreate_forwarded_priority (privBit : Nat) (priv : Bool)
    (pool : List Nat) (uxPriority : Nat) (kret : Int) (kref : Nat)
    (out : CreateOut)
    (heq : MPU_xTaskCreate privBit priv pool uxPriority kret kref = some out)
    (p : Nat) (hmem : Ev.callTaskCreate p ∈ out.trace) :
    p = if priv = false then uxPriority &&& (mask32 ^^^ privBit)
        else uxPriority := by
  cases hscan : reserveScan pool with
  | none =>
    cases priv with
    | false =>
      simp [MPU_xTaskCreate, MPU_GetFreeIndexInHandlePool, hscan] at heq
      rw [← heq] at hmem
      simp at hmem
    | true =>
      simp [MPU_xTaskCreate, MPU_GetFreeIndexInHandlePool, hscan] at heq
      rw [← heq] at hmem
      simp at hmem
  | some v =>
    obtain ⟨i, q⟩ := v
    obtain ⟨hlen, hget, hset, -⟩ := reserveScan_some pool i q hscan
    subst hset
    have hne : ((i : Int)) ≠ -1 := by omega
    by_cases hkref : kref = 0
    · subst hkref
      have hrel := release_after_reserve pool i hlen hget
      cases priv with
      | false =>
        simp [MPU_xTaskCreate, MPU_GetFreeIndexInHandlePool, hscan, hne,
          hrel] at heq
        rw [← heq] at hmem
        simp at hmem
        simp [hmem]
      | true =>
        simp [MPU_xTaskCreate, MPU_GetFreeIndexInHandlePool, hscan, hne,
          hrel] at heq
        rw [← heq] at hmem
        simp at hmem
        simp [hmem]
    · have hst := store_after_reserve pool i kref hlen
      cases priv with
      | false =>
        simp [MPU_xTaskCreate, MPU_GetFreeIndexInHandlePool, hscan, hne,
          hst, hkref] at heq
        rw [← heq] at hmem
        simp at hmem
        simp [hmem]
      | true =>
        simp [MPU_xTaskCreate, MPU_GetFreeIndexInHandlePool, hscan, hne,
          hst, hkref] at heq
        rw [← heq] at hmem
        simp at hmem
        simp [hmem]

theorem xTaskCreateStatic_forwarded_priority (privBit : Nat) (priv : Bool)
    (pool : List Nat) (uxPriority : Nat) (kref : Nat)
    (out : CreateStaticOut)
    (heq : MPU_xTaskCreateStatic privBit priv pool uxPriority kref = some out)
    (p : Nat) (hmem : Ev.callTaskCreateStatic p ∈ out.trace) :
    p = if priv = false then uxPriority &&& (mask32 ^^^ privBit)
        else uxPriority := by
  cases hscan : reserveScan pool with
  | none =>
    cases priv with
    | false =>
      simp [MPU_xTaskCreateStatic, MPU_GetFreeIndexInHandlePool, hscan] at heq
      rw [← heq] at hmem
      simp at hmem
    | true =>
      simp [MPU_xTaskCreateStatic, MPU_GetFreeIndexInHandlePool, hscan] at heq
      rw [← heq] at hmem
      simp at hmem
  | some v =>
    obtain ⟨i, q⟩ := v
    obtain ⟨hlen, hget, hset, -⟩ := reserveScan_some pool i q hscan
    subst hset
    have hne : ((i : Int)) ≠ -1 := by omega
    by_cases hkref : kref = 0
    · subst hkref
      have hrel := release_after_reserve pool i hlen hget
      cases priv with
      | false =>
        simp [MPU_xTaskCreateStatic, MPU_GetFreeIndexInHandlePool, hscan,
          hne, hrel] at heq
        rw [← heq] at hmem
        simp at hmem
        simp [hmem]
      | true =>
        simp [MPU_xTaskCreateStatic, MPU_GetFreeIndexInHandlePool, hscan,
          hne, hrel] at heq
        rw [← heq] at hmem
        simp at hmem
        simp [hmem]
    · have hst := store_after_reserve pool i kref hlen
      cases priv with
      | false =>
        simp [MPU_xTaskCreateStatic, MPU_GetFreeIndexInHandlePool, hscan,
          hne, hst, hkref] at heq
        rw [← heq] at hmem
        simp at hmem
        simp [hmem]
      | true =>
        simp [MPU_xTaskCreateStatic, MPU_GetFreeIndexInHandlePool, hscan,
          hne, hst, hkref] at heq
        rw [← heq] at hmem
        simp at hmem
        simp [hmem]

/-- Claim C9: when MPU_xTaskCreate or MPU_xTaskCreateStatic starts
unprivileged, the priority it forwards to the underlying create primitive
is uxPriority with portPRIVILEGE_BIT cleared; when it starts privileged,
the priority is forwarded unchanged. -/
theorem mpu_create_clears_privilege_bit
    (privBit : Nat) (pool : List Nat) (uxPriority : Nat) (kret : Int)
    (kref : Nat) (hbit : privBit < 2 ^ 32) :
    (∀ out, MPU_xTaskCreate privBit false pool uxPriority kret kref = some out →
      ∀ p, Ev.callTaskCreate p ∈ out.trace →
        p = uxPriority &&& (mask32 ^^^ privBit) ∧ p &&& privBit = 0) ∧
    (∀ out, MPU_xTaskCreate privBit true pool uxPriority kret kref = some out →
      ∀ p, Ev.callTaskCreate p ∈ out.trace → p = uxPriority) ∧
    (∀ out, MPU_xTaskCreateStatic privBit false pool uxPriority kref = some out →
      ∀ p, Ev.callTaskCreateStatic p ∈ out.trace →
        p = uxPriority &&& (mask32 ^^^ privBit) ∧ p &&& privBit = 0) ∧
    (∀ out, MPU_xTaskCreateStatic privBit true pool uxPriority kref = some out →
      ∀ p, Ev.callTaskCreateStatic p ∈ out.trace → p = uxPriority) := by
  refine ⟨fun out heq p hmem => ?_, fun out heq p hmem => ?_,
    fun out heq p hmem => ?_, fun out heq p hmem => ?_⟩
  · have hp := xTaskCreate_forwarded_priority privBit false pool uxPriority
      kret kref out heq p hmem
    simp only [if_pos rfl] at hp
    exact ⟨hp, hp ▸ land_not_privBit privBit uxPriority hbit⟩
  · have hp := xTaskCreate_forwarded_priority privBit true pool uxPriority
      kret kref out heq p hmem
    simpa using hp
  · have hp := xTaskCreateStatic_forwarded_priority privBit false pool
      uxPriority kref out heq p hmem
    simp only [if_pos rfl] at hp
    exact ⟨hp, hp ▸ land_not_privBit privBit uxPriority hbit⟩
  · have hp := xTaskCreateStatic_forwarded_priority privBit true pool
      uxPriority kref out heq p hmem
    simpa using hp

/-- Witness for the claim C9 theorem at a concrete input. -/
theorem mpu_create_clears_privilege_bit_w :
    ((2 ^ 31 : Nat) < 2 ^ 32) ∧
    ((∀ out, MPU_xTaskCreate (2 ^ 31) false [0] (5 + 2 ^ 31) pdPASS 9 = some out →
       ∀ p, Ev.callTaskCreate p ∈ out.trace →
         p = (5 + 2 ^ 31) &&& (mask32 ^^^ 2 ^ 31) ∧ p &&& 2 ^ 31 = 0) ∧
     (∀ out, MPU_xTaskCreate (2 ^ 31) true [0] (5 + 2 ^ 31) pdPASS 9 = some out →
       ∀ p, Ev.callTaskCreate p ∈ out.trace → p = 5 + 2 ^ 31) ∧
     (∀ out, MPU_xTaskCreateStatic (2 ^ 31) false [0] (5 + 2 ^ 31) 9 = some out →
       ∀ p, Ev.callTaskCreateStatic p ∈ out.trace →
         p = (5 + 2 ^ 31) &&& (mask32 ^^^ 2 ^ 31) ∧ p &&& 2 ^ 31 = 0) ∧
     (∀ out, MPU_xTaskCreateStatic (2 ^ 31) true [0] (5 + 2 ^ 31) 9 = some out →
       ∀ p, Ev.callTaskCreateStatic p ∈ out.trace → p = 5 + 2 ^ 31)) :=
  ⟨by norm_num,
   mpu_create_clears_privilege_bit (2 ^ 31) [0] (5 + 2 ^ 31) pdPASS 9
     (by norm_num)⟩

/-- Claim C10: the copy of MPU_xQueueGenericSend in src/unnamed/part_000 and
the copy in src/portable/Common/mpu_wrappers.c are extensionally equal: for
every privilege state, pool, oracle result and argument tuple they produce
the same return value and the same trace of pool, privilege and barrier
effects. -/
theorem mpu_xQueueGenericSend_copies_equal
    (priv : Bool) (pool : List Nat) (kret xQueue item ticks copyPos : Int) :
    MPU_xQueueGenericSend priv pool kret xQueue item ticks copyPos =
      MPU_xQueueGenericSendCommon priv pool kret xQueue item ticks copyPos :=
  rfl

end MPU
